import Mathlib

/-!
Verification development for the Aurora Ontology Obsidian plugin.

The definitions below are shallow embeddings of the TypeScript source:

* `determineNoteType`, `classifyNote` — folder-prefix note classifier
  (src/obsidian-plugin/src/types/entities.ts, note-classifier section).
* `parseFM` / `parseFrontmatter` — the frontmatter parser
  (`parseFrontmatter` in entities.ts): the JavaScript regex
  `^---\n([\s\S]*?)\n---\n?([\s\S]*)$` with a lazy group is embedded as
  "find the first occurrence of the closing marker"; the per-line
  `key: value` loop (first colon, trim, strip matching quotes, switch on a
  fixed key set) is embedded by `processLine`/`setField`.
* `InsightSyncService` — pending-set plus in-progress flag
  (`queueSync`, `processSyncQueue`, `onFileRename`), both as an atomic
  drain function and as a small-step machine whose steps are the points
  at which the real code can interleave (its awaits).
* `doQuery` and the `onload` wiring of the plugin class
  (src/unnamed/part_001) together with the insight panel state
  (src/unnamed/part_000).

Remote calls are recorded in traces; their outcomes are supplied by
environment records, so every definition is executable and decidable on
concrete inputs.
-/

namespace Aurora

/-- The single-quote character, written via its code point. -/
def squote : Char := Char.ofNat 39

/-- The double-quote character. -/
def dquote : Char := '"'

/-- Whitespace characters stripped by JavaScript String.prototype.trim
(restricted to the ASCII whitespace that can occur in a header line;
a header line never contains a newline, which is the split character). -/
def wsChar (c : Char) : Bool :=
  c == ' ' || c == '\t' || c == '\n' || c == '\r' || c == '\x0b' || c == '\x0c'

/-- Trim on character lists: drop leading and trailing whitespace. -/
def trimL (l : List Char) : List Char :=
  ((l.dropWhile wsChar).reverse.dropWhile wsChar).reverse

/-- First index at which `pat` occurs in `s` (as a prefix of the suffix
starting there).  This is how the lazy group of the source regex
`^---\n([\s\S]*?)\n---` selects its match: the shortest prefix wins,
so the closing marker found is the first occurrence. -/
def firstIdx (pat : List Char) : List Char → Option Nat
  | [] => if pat.isEmpty then some 0 else none
  | c :: rest =>
    if pat.isPrefixOf (c :: rest) then some 0
    else (firstIdx pat rest).map (· + 1)

/-- Embedding of JavaScript `s.startsWith(pre)`, computed on the
underlying character lists so that concrete instances reduce. -/
def jsStartsWith (s pre : String) : Bool := pre.data.isPrefixOf s.data

/-- Note roles, from `NoteType` in entities.ts: thought = current claim,
question = open question, insight = retrospective understanding. -/
inductive NoteType where
  | thought
  | question
  | insight
deriving DecidableEq, Repr

/-- Embedding of `determineNoteType` / `classifyNote`: the role is a pure
function of the storage path, by folder prefix; `none` when the path is
in no role folder. -/
def determineNoteType (path : String) : Option NoteType :=
  if jsStartsWith path "Thoughts/" then some .thought
  else if jsStartsWith path "Questions/" then some .question
  else if jsStartsWith path "Insights/" then some .insight
  else none

/-- A vault file as the plugin sees it: its path, its current content
(what `vault.read` returns for it), and whether it is a regular file
(`instanceof TFile`) rather than a folder. -/
structure VFile where
  path : String
  content : String
  isTFile : Bool
deriving DecidableEq, Repr

/-- Embedding of `classifyNote(file)`. -/
def classifyNote (f : VFile) : Option NoteType := determineNoteType f.path

/-- Embedding of `isQuestionNote`. -/
def isQuestionNote (f : VFile) : Bool := classifyNote f == some .question

/-- Embedding of `isInsightNote`. -/
def isInsightNote (f : VFile) : Bool := classifyNote f == some .insight

/-- Embedding of the `NoteFrontmatter` interface.  The TypeScript casts
`value as NoteType` and `value as 'low' | 'medium' | 'high'` perform no
runtime validation, so `type` and `confidence` hold arbitrary strings.
The four list-valued fields are declared in the interface but never
assigned by `parseFrontmatter`, which is recorded faithfully here. -/
structure NoteFrontmatter where
  type : Option String := none
  created : Option String := none
  status : Option String := none
  triggered_by : Option String := none
  related_insights : Option (List String) := none
  related_questions : Option (List String) := none
  source_questions : Option (List String) := none
  confidence : Option String := none
  evolved_from : Option String := none
  tags : Option (List String) := none
deriving DecidableEq, Repr

/-- The empty frontmatter value, as returned for absent or malformed
headers. -/
def emptyFM : NoteFrontmatter := {}

/-- Embedding of JavaScript `str.split('\n')` on character lists:
always at least one (possibly empty) piece. -/
def splitNl : List Char → List (List Char)
  | [] => [[]]
  | c :: rest =>
    if c == '\n' then [] :: splitNl rest
    else
      match splitNl rest with
      | [] => [[c]]
      | l :: ls => (c :: l) :: ls

/-- Embedding of the quote-stripping step: if the value starts and ends
with the same quote character it is sliced by one from both sides
(JavaScript `value.slice(1, -1)`; note a single lone quote character
satisfies both tests and becomes the empty string, as in the source). -/
def stripQuotes (v : List Char) : List Char :=
  if (v.head? == some dquote && v.getLast? == some dquote)
      || (v.head? == some squote && v.getLast? == some squote) then
    (v.dropLast).drop 1
  else v

/-- Embedding of the `switch (key)` statement: only the six scalar keys
populate typed fields; every other key falls through to the default and
is dropped. -/
def setField (fm : NoteFrontmatter) (key : String) (v : String) : NoteFrontmatter :=
  if key = "type" then { fm with type := some v }
  else if key = "created" then { fm with created := some v }
  else if key = "status" then { fm with status := some v }
  else if key = "triggered_by" then { fm with triggered_by := some v }
  else if key = "confidence" then { fm with confidence := some v }
  else if key = "evolved_from" then { fm with evolved_from := some v }
  else fm

/-- Embedding of one iteration of the header-line loop: find the first
colon (skip the line if there is none), trim key and value, strip
matching quotes, dispatch on the key. -/
def processLine (fm : NoteFrontmatter) (line : List Char) : NoteFrontmatter :=
  match line.findIdx? (fun c => c == ':') with
  | none => fm
  | some i =>
    setField fm (trimL (line.take i)).asString
      (stripQuotes (trimL (line.drop (i + 1)))).asString

/-- Embedding of the whole header-line loop over the raw header text. -/
def parseLines (raw : List Char) : NoteFrontmatter :=
  (splitNl raw).foldl processLine emptyFM

/-- The opening delimiter consumed by `^---\n`. -/
def openMark : List Char := ['-', '-', '-', '\n']

/-- The closing delimiter sought by the lazy group: `\n---`. -/
def closeMark : List Char := ['\n', '-', '-', '-']

/-- Embedding of `parseFrontmatter` on character lists.  The regex
matches iff the text starts with the opening delimiter and the closing
marker occurs somewhere after it; the lazy group takes everything up to
the first such occurrence, `\n?` then greedily eats one newline, and the
remainder is the body.  On no match the result is the empty frontmatter
with the whole input as body. -/
def parseFM (content : List Char) : NoteFrontmatter × List Char :=
  if openMark.isPrefixOf content then
    match firstIdx closeMark (content.drop 4) with
    | some k =>
      let raw := (content.drop 4).take k
      let after := (content.drop 4).drop (k + 4)
      let body := match after with
        | '\n' :: t => t
        | _ => after
      (parseLines raw, body)
    | none => (emptyFM, content)
  else (emptyFM, content)

/-- String-level wrapper of `parseFM`, the embedding of
`parseFrontmatter(content)`.  It is a total function: the source never
throws, malformed input degrades to an empty header and full body. -/
def parseFrontmatter (s : String) : NoteFrontmatter × String :=
  let r := parseFM s.data
  (r.1, r.2.asString)

/-- The condition under which the source regex matches: the text begins
with the opening delimiter line and a closing marker occurs later.  This
is what "a recognizable header block" means operationally. -/
def hasRecognizableHeader (content : List Char) : Bool :=
  openMark.isPrefixOf content && (firstIdx closeMark (content.drop 4)).isSome

/-- Reference extraction used to state what "recovering a recognized
field" means, written directly from the specification text: each header
line is interpreted as `key: value`, surrounding matching quotes are
stripped, and the last line whose trimmed key equals `k` supplies the
value.  Defined per key, independently of the fold over a frontmatter
record performed by the code. -/
def lineStep (k : String) (acc : Option String) (line : List Char) : Option String :=
  match line.findIdx? (fun c => c == ':') with
  | none => acc
  | some i =>
    if (trimL (line.take i)).asString = k then
      some (stripQuotes (trimL (line.drop (i + 1)))).asString
    else acc

/-- Value of the last `k: value` line among `lines`, if any. -/
def extractLast (k : String) (lines : List (List Char)) : Option String :=
  lines.foldl (lineStep k) none

example :
    parseFrontmatter "---\ntype: insight\ncreated: 2025-01-03\n---\nBody text" =
      ({ type := some "insight", created := some "2025-01-03" }, "Body text") := by
  decide

example : parseFrontmatter "no header at all" = (emptyFM, "no header at all") := by
  decide

example :
    parseFrontmatter "---\nstatus: \"open\"\nnocolonline\n---\nB" =
      ({ status := some "open" }, "B") := by
  decide

example : determineNoteType "Insights/a.md" = some .insight := by decide

example : determineNoteType "Understanding/a.md" = none := by decide

/-- Embedding of the `RetrievedInsight` interface in types/api.ts.  The
similarity score is carried as a rational; the opaque
`Record<string, unknown>` frontmatter is carried as an association list.
The core never computes on either, it only passes them through. -/
structure RetrievedInsight where
  path : String
  content : String
  similarity : Rat
  frontmatter : List (String × String)
deriving DecidableEq, Repr

/-- Embedding of `QuestionType` in types/api.ts. -/
inductive QuestionType where
  | memory_invoke
  | conflict_detect
  | amplify
deriving DecidableEq, Repr

/-- Embedding of the `ComparisonQuestion` interface in types/api.ts. -/
structure ComparisonQuestion where
  type : QuestionType
  insight_reference : Option String := none
  quote : Option String := none
  question : String
deriving DecidableEq, Repr

/-- Remote operations issued through the ApiClient, with the request
payloads the call sites construct. -/
inductive RemoteCall where
  | indexUpsert (path content : String) (frontmatter : NoteFrontmatter)
  | indexDelete (path : String)
  | retrieve (question : String) (topK : Nat) (minSimilarity : Rat)
  | generate (question : String) (insights : List RetrievedInsight)
deriving DecidableEq, Repr

/-- Recognizer for index-upsert calls. -/
def RemoteCall.isUpsert : RemoteCall → Bool
  | .indexUpsert _ _ _ => true
  | _ => false

/-- Embedding of the mutable fields of `InsightSyncService`: the pending
set `syncQueue` (a JavaScript Set: insertion-ordered, duplicate-free)
and the in-progress flag `isSyncing`. -/
structure SyncState where
  syncQueue : List String
  isSyncing : Bool
deriving DecidableEq, Repr

/-- Embedding of `Set.add`: re-adding a present element is a no-op,
otherwise the element is appended in insertion order (which is the
order `Array.from` later produces). -/
def setAdd (q : List String) (p : String) : List String :=
  if p ∈ q then q else q ++ [p]

/-- Embedding of `queueSync(path)`: add the path to the pending set.
The source additionally invokes the debounced drain scheduler; the
resulting drain is modelled separately by `processSyncQueue`. -/
def queueSync (st : SyncState) (p : String) : SyncState :=
  { st with syncQueue := setAdd st.syncQueue p }

/-- Environment of a drain pass: `resolve` is
`vault.getAbstractFileByPath` (none for a missing path; `isTFile` false
for a folder), and `upsertOk p` tells whether the index-upsert remote
call for the file at path `p` succeeds.  The upsert call itself is
always issued before its outcome is known. -/
structure SyncEnv where
  resolve : String → Option VFile
  upsertOk : String → Bool

/-- Remote calls issued by `syncInsight(file)`: nothing when the file is
not an Insight note (the method returns false without contacting the
server), otherwise exactly one index-upsert carrying the path, the
parsed body and the parsed frontmatter. -/
def syncInsightCalls (f : VFile) : List RemoteCall :=
  if isInsightNote f then
    let r := parseFM f.content.data
    [RemoteCall.indexUpsert f.path r.2.asString r.1]
  else []

/-- Whether `syncInsight(file)` throws: only when it issued an upsert
and that remote call failed. -/
def syncInsightThrows (env : SyncEnv) (f : VFile) : Bool :=
  isInsightNote f && !(env.upsertOk f.path)

/-- Remote calls contributed by one snapshot path during a drain:
resolve the path, skip it unless it is a regular file, else the calls of
`syncInsight`.  Note the calls do not depend on any outcome. -/
def pathCalls (env : SyncEnv) (p : String) : List RemoteCall :=
  match env.resolve p with
  | some f => if f.isTFile then syncInsightCalls f else []
  | none => []

/-- Embedding of one iteration of the drain loop body on pending set
`q`: resolve the path, skip non-files, try `syncInsight` and re-add the
path to the live pending set when it throws. -/
def procPath (env : SyncEnv) (q : List String) (p : String) :
    List String × List RemoteCall :=
  match env.resolve p with
  | some f =>
    if f.isTFile then
      (if syncInsightThrows env f then setAdd q p else q, syncInsightCalls f)
    else (q, [])
  | none => (q, [])

/-- The drain loop over a snapshot, threading the live pending set and
collecting the issued remote calls in order. -/
def drainLoop (env : SyncEnv) : List String → List String → List String × List RemoteCall
  | [], q => (q, [])
  | p :: ps, q =>
    let pr := procPath env q p
    let rest := drainLoop env ps pr.1
    (rest.1, pr.2 ++ rest.2)

/-- Embedding of `processSyncQueue` run to completion with no
interleaved events (the interleaved view is `machineStep`).  Guard:
return immediately when already syncing or the pending set is empty.
Otherwise snapshot and clear the set, run the loop, drop the flag, and
report whether a further drain was scheduled (the set is non-empty
again). -/
def processSyncQueue (env : SyncEnv) (st : SyncState) :
    SyncState × List RemoteCall × Bool :=
  if st.isSyncing || st.syncQueue.isEmpty then (st, [], false)
  else
    let r := drainLoop env st.syncQueue []
    (⟨r.1, false⟩, r.2, !r.1.isEmpty)

/-- Embedding of `onFileCreate` / `onFileModify`: queue the path iff the
event is for a regular file classified as an Insight note. -/
def onFileCreate (st : SyncState) (f : VFile) : SyncState :=
  if f.isTFile && isInsightNote f then queueSync st f.path else st

/-- Embedding of `onFileDelete`: a remote delete is issued iff the
deleted path is under the Insights folder; a failure is logged and the
delete is not retried. -/
def onFileDelete (f : VFile) : List RemoteCall :=
  if jsStartsWith f.path "Insights/" then [RemoteCall.indexDelete f.path] else []

/-- Embedding of `onFileRename(file, oldPath)`: out of Insights = remote
delete of the old path only; into Insights = queue the new path only;
within Insights = remote delete of the old path, then queue the new
path; otherwise nothing.  Delete failures are caught and logged. -/
def onFileRename (st : SyncState) (f : VFile) (oldPath : String) :
    SyncState × List RemoteCall :=
  if jsStartsWith oldPath "Insights/" && !(jsStartsWith f.path "Insights/") then
    (st, [RemoteCall.indexDelete oldPath])
  else if !(jsStartsWith oldPath "Insights/") && jsStartsWith f.path "Insights/" then
    (if f.isTFile then queueSync st f.path else st, [])
  else if jsStartsWith oldPath "Insights/" && jsStartsWith f.path "Insights/" then
    (if f.isTFile then queueSync st f.path else st, [RemoteCall.indexDelete oldPath])
  else (st, [])

/-- Phase of the sync service: `idle`, or a drain pass in progress with
the unprocessed part of its snapshot.  `isSyncing` is true exactly in
the `running` phase. -/
inductive SyncPhase where
  | idle
  | running (remaining : List String)
deriving DecidableEq, Repr

/-- Interleaved view of the sync service state: the live pending set
plus the phase. -/
structure MachineState where
  queue : List String
  phase : SyncPhase
deriving DecidableEq, Repr

/-- Events that can hit the sync service between suspension points:
`enq p` is `queueSync(p)` run by a file-event handler, `invoke` is an
invocation of `processSyncQueue` (for example the debounced timer
firing), `tick` is one iteration of the drain loop (the code between two
awaits), `finish` is the epilogue that drops the in-progress flag. -/
inductive SyncEvent where
  | enq (p : String)
  | invoke
  | tick
  | finish
deriving DecidableEq, Repr

/-- Small-step semantics of `InsightSyncService` as the code interleaves
at its awaits.  `invoke` in the running phase is the source guard
`if (this.isSyncing) return` and changes nothing; `invoke` while idle
with a non-empty pending set snapshots and clears it; `tick` processes
one snapshot path against the live pending set. -/
def machineStep (env : SyncEnv) (e : SyncEvent) (s : MachineState) : MachineState :=
  match e with
  | .enq p => { s with queue := setAdd s.queue p }
  | .invoke =>
    match s.phase with
    | .idle => if s.queue.isEmpty then s else { queue := [], phase := .running s.queue }
    | .running _ => s
  | .tick =>
    match s.phase with
    | .running (p :: rest) =>
      { queue := (procPath env s.queue p).1, phase := .running rest }
    | _ => s
  | .finish =>
    match s.phase with
    | .running [] => { s with phase := .idle }
    | _ => s

/-- Embedding of the presentation state owned by `InsightPanelView`:
current question, insight list, question list, loading flag. -/
structure PanelState where
  currentQuestion : Option String
  insights : List RetrievedInsight
  questions : List ComparisonQuestion
  isLoading : Bool
deriving DecidableEq, Repr

/-- Embedding of `clearResults()`: every field reset. -/
def clearedPanel : PanelState := ⟨none, [], [], false⟩

/-- Embedding of `updateResults(question, insights, questions)`: the
state is overwritten wholesale and loading ends. -/
def updateResults (q : String) (ins : List RetrievedInsight)
    (qs : List ComparisonQuestion) : PanelState :=
  ⟨some q, ins, qs, false⟩

/-- Environment of a query run: the tunables and active file from the
plugin, whether the insight panel view instance exists, and the outcomes
of the host read and of the two remote operations.  `Except` failures
model rejections thrown across an await. -/
structure QueryEnv where
  topK : Nat
  minSimilarity : Rat
  autoQuery : Bool
  activeFile : Option VFile
  panelPresent : Bool
  read : String → Except String String
  retrieveResult : String → Nat → Rat → Except String (List RetrievedInsight)
  generateResult : String → List RetrievedInsight →
    Except String (List ComparisonQuestion × Nat × Nat)

/-- Result of a `doQuery` run: final panel state, whether a failure
notice was surfaced, and the remote calls issued in order. -/
structure QueryOutcome where
  panel : PanelState
  notice : Bool
  calls : List RemoteCall
deriving DecidableEq, Repr

/-- The fixed fallback question synthesized when retrieval returns no
insights, with the prompt string from the source. -/
def fallbackQuestion : ComparisonQuestion :=
  { type := .amplify
    question :=
      "No related Insights found. What new understanding are you seeking with this question?" }

/-- Embedding of `AuroraOntologyPlugin.doQuery(file)`.  Guard: no panel,
no work.  Otherwise read the note, strip the header, issue the retrieval
call; an empty result presents the fallback question with no insights
and no generation call; otherwise issue the generation call and present
both lists.  Every thrown failure is caught in the single catch block,
which surfaces a notice and clears the panel; the function always
returns, the error never escapes the callback. -/
def doQuery (env : QueryEnv) (file : VFile) (p0 : PanelState) : QueryOutcome :=
  if !env.panelPresent then ⟨p0, false, []⟩
  else
    match env.read file.path with
    | .error _ => ⟨clearedPanel, true, []⟩
    | .ok content =>
      let body := (parseFrontmatter content).2
      let rCall := RemoteCall.retrieve body env.topK env.minSimilarity
      match env.retrieveResult body env.topK env.minSimilarity with
      | .error _ => ⟨clearedPanel, true, [rCall]⟩
      | .ok insights =>
        if insights.isEmpty then
          ⟨updateResults body [] [fallbackQuestion], false, [rCall]⟩
        else
          let gCall := RemoteCall.generate body insights
          match env.generateResult body insights with
          | .error _ => ⟨clearedPanel, true, [rCall, gCall]⟩
          | .ok r => ⟨updateResults body insights r.1, false, [rCall, gCall]⟩

/-- Remote calls of `queryForCurrentNote()`: nothing unless the active
file is a question note, else the calls of `doQuery` on it. -/
def queryForCurrentNoteCalls (env : QueryEnv) : List RemoteCall :=
  match env.activeFile with
  | none => []
  | some af => if isQuestionNote af then (doQuery env af clearedPanel).calls else []

/-- Remote calls of the `file-open` handler registered by `onload`:
auto-query on question notes only. -/
def fileOpenHandlerCalls (env : QueryEnv) (f : VFile) : List RemoteCall :=
  if env.autoQuery && isQuestionNote f then queryForCurrentNoteCalls env else []

/-- Remote calls of the vault `modify` handler registered by `onload`:
auto-query when the modified file is the active question note. -/
def modifyHandlerCalls (env : QueryEnv) (f : VFile) : List RemoteCall :=
  if f.isTFile && env.autoQuery && isQuestionNote f
      && (match env.activeFile with
          | some af => af.path == f.path
          | none => false) then
    queryForCurrentNoteCalls env
  else []

/-- The registrations `AuroraOntologyPlugin.onload` performs, in source
order: the panel view type, the ribbon icon, three commands, the
settings tab, one workspace event subscription (file-open), one vault
event subscription (modify), and the layout-ready hook.  No vault
create, delete or rename subscription is made, and no
`InsightSyncService` is constructed anywhere in `onload`. -/
inductive OnloadRegistration where
  | view
  | ribbonIcon
  | command (id : String)
  | settingsTab
  | workspaceEvent (name : String)
  | vaultEvent (name : String)
  | layoutReadyHook
deriving DecidableEq, Repr

/-- Transcription of the `onload` body. -/
def onloadRegistrations : List OnloadRegistration :=
  [ .view
  , .ribbonIcon
  , .command "open-insight-panel"
  , .command "query-related-insights"
  , .command "reindex-insights"
  , .settingsTab
  , .workspaceEvent "file-open"
  , .vaultEvent "modify"
  , .layoutReadyHook ]

/-- The vault event names `onload` subscribes to. -/
def onloadVaultEventNames : List String :=
  onloadRegistrations.filterMap fun r =>
    match r with
    | .vaultEvent n => some n
    | _ => none

/-- Remote calls a single registration contributes when the host fires
the event `name` from `source` with payload file `f`: only the two event
subscriptions have handlers, and each reacts only to its own event. -/
def registrationCallsOn (env : QueryEnv) (source name : String) (f : VFile) :
    OnloadRegistration → List RemoteCall := fun r =>
  match r with
  | .workspaceEvent "file-open" =>
    if source = "workspace" && name = "file-open" then fileOpenHandlerCalls env f
    else []
  | .vaultEvent "modify" =>
    if source = "vault" && name = "modify" then modifyHandlerCalls env f
    else []
  | _ => []

/-- All remote calls the plugin as wired by `onload` issues in reaction
to one host event. -/
def onloadEventCalls (env : QueryEnv) (source name : String) (f : VFile) :
    List RemoteCall :=
  onloadRegistrations.flatMap (registrationCallsOn env source name f)

/-- Recognizer for retrieval calls. -/
def RemoteCall.isRetrieveCall : RemoteCall → Bool
  | .retrieve _ _ _ => true
  | _ => false

/-- Recognizer for generation calls. -/
def RemoteCall.isGenerateCall : RemoteCall → Bool
  | .generate _ _ => true
  | _ => false

lemma mem_setAdd_self (q : List String) (p : String) : p ∈ setAdd q p := by
  unfold setAdd
  split
  · assumption
  · exact List.mem_append_right _ (List.mem_singleton.mpr rfl)

lemma mem_setAdd_of_mem {q : List String} {x : String} (p : String) (h : x ∈ q) :
    x ∈ setAdd q p := by
  unfold setAdd
  split
  · exact h
  · exact List.mem_append_left _ h

lemma procPath_calls (env : SyncEnv) (q : List String) (p : String) :
    (procPath env q p).2 = pathCalls env p := by
  unfold procPath pathCalls
  cases env.resolve p with
  | none => rfl
  | some f =>
    by_cases hT : f.isTFile <;> simp [hT]

lemma mem_procPath_queue (env : SyncEnv) {q : List String} {x : String} (p : String)
    (h : x ∈ q) : x ∈ (procPath env q p).1 := by
  unfold procPath
  cases env.resolve p with
  | none => exact h
  | some f =>
    by_cases hT : f.isTFile <;> simp [hT]
    · split
      · exact mem_setAdd_of_mem _ h
      · exact h
    · exact h

lemma drainLoop_calls (env : SyncEnv) (ps : List String) :
    ∀ q, (drainLoop env ps q).2 = ps.flatMap (pathCalls env) := by
  induction ps with
  | nil => intro q; rfl
  | cons p ps ih =>
    intro q
    simp only [drainLoop, List.flatMap_cons, ih, procPath_calls]

lemma mem_drainLoop_queue (env : SyncEnv) (ps : List String) :
    ∀ q x, x ∈ q → x ∈ (drainLoop env ps q).1 := by
  induction ps with
  | nil => intro q x h; exact h
  | cons p ps ih =>
    intro q x h
    exact ih _ _ (mem_procPath_queue env p h)

lemma drainLoop_requeues (env : SyncEnv) {P : String} {f : VFile}
    (hres : env.resolve P = some f) (hT : f.isTFile = true)
    (hthrow : syncInsightThrows env f = true) (ps : List String) :
    ∀ q, P ∈ ps → P ∈ (drainLoop env ps q).1 := by
  induction ps with
  | nil => intro q h; cases h
  | cons p ps ih =>
    intro q h
    rcases List.mem_cons.mp h with hEq | hMem
    · subst hEq
      simp only [drainLoop]
      apply mem_drainLoop_queue
      unfold procPath
      rw [hres]
      simp [hT, hthrow, mem_setAdd_self]
    · simp only [drainLoop]
      exact ih _ hMem

/-- C1: the claim asserts that in the plugin as wired at load time,
creating an Understanding-role note (Insights/ prefix) leads to exactly
one index-upsert remote call after the debounce window.  The code
contradicts this: `onload` subscribes only to the workspace `file-open`
event and the vault `modify` event (both auto-query only) and never
constructs or registers the fully implemented `InsightSyncService`
(whose `onFileCreate` handler exists but is dead code; the settings tab
even guards `if (this.plugin.syncService)` on a field the plugin class
never declares).  Hence a vault create event triggers no handler at all:
the plugin issues zero remote calls, in particular zero index-upserts,
not the one the claim requires.  This theorem evaluates the wiring at
the failing input: for every environment and every created file, the set
of remote calls the loaded plugin issues in reaction to a vault create
event is empty, and no create subscription exists. -/
theorem c1_create_event_triggers_no_remote_calls (env : QueryEnv) (f : VFile) :
    onloadEventCalls env "vault" "create" f = [] ∧
    "create" ∉ onloadVaultEventNames ∧
    onloadVaultEventNames = ["modify"] := by
  refine ⟨?_, by decide, by decide⟩
  simp [onloadEventCalls, onloadRegistrations, registrationCallsOn]

/-- C5: a rename event from an Understanding-role old path A to a
non-Understanding-role new path B takes the first branch of
`onFileRename`: the pending set is returned unchanged (so B is not
added) and the issued remote calls are exactly one `IndexDelete(A)` —
in particular no `IndexUpsert` ever. -/
theorem c5_rename_out_of_insights_single_delete (st : SyncState) (f : VFile)
    (A : String)
    (hA : jsStartsWith A "Insights/" = true)
    (hB : jsStartsWith f.path "Insights/" = false) :
    onFileRename st f A = (st, [RemoteCall.indexDelete A]) := by
  simp [onFileRename, hA, hB]

/-- Witness for C5 at a concrete rename from Insights/a.md to
Thoughts/a.md. -/
theorem c5_rename_out_of_insights_single_delete_witness :
    onFileRename ⟨["Insights/x.md"], false⟩ ⟨"Thoughts/a.md", "body", true⟩
        "Insights/a.md" =
      (⟨["Insights/x.md"], false⟩, [RemoteCall.indexDelete "Insights/a.md"]) :=
  c5_rename_out_of_insights_single_delete _ _ _ (by decide) (by decide)

/-- C7: when the panel exists, the note reads successfully and the
retrieval call returns the empty insight sequence, `doQuery` presents
exactly the fallback: the question body, an empty insight list and the
single fixed `amplify` fallback question, issues only the retrieval
call, and never calls generation (no `generate` call in the trace),
with no failure notice. -/
theorem c7_empty_retrieval_presents_fallback (env : QueryEnv) (file : VFile)
    (p0 : PanelState) (content : String)
    (hp : env.panelPresent = true)
    (hr : env.read file.path = .ok content)
    (hq : env.retrieveResult (parseFrontmatter content).2 env.topK env.minSimilarity
        = .ok []) :
    doQuery env file p0 =
      ⟨updateResults (parseFrontmatter content).2 [] [fallbackQuestion], false,
        [RemoteCall.retrieve (parseFrontmatter content).2 env.topK env.minSimilarity]⟩ := by
  simp [doQuery, hp, hr, hq]

/-- Witness for C7 at a concrete environment whose retrieval returns
no insights. -/
theorem c7_empty_retrieval_presents_fallback_witness :
    doQuery
        ⟨5, 0, true, none, true, fun _ => .ok "why", fun _ _ _ => .ok [],
          fun _ _ => .ok ([], 0, 0)⟩
        ⟨"Questions/q.md", "", true⟩ clearedPanel =
      ⟨updateResults (parseFrontmatter "why").2 [] [fallbackQuestion], false,
        [RemoteCall.retrieve (parseFrontmatter "why").2 5 0]⟩ :=
  c7_empty_retrieval_presents_fallback _ _ _ "why" rfl rfl rfl

/-- C8: if the retrieval call fails, or retrieval succeeds with a
non-empty sequence and the generation call fails, `doQuery` catches the
rejection: the panel state is cleared wholesale (question, insights and
questions all reset, loading off), a user-visible notice is surfaced,
and the trace contains at most one retrieval and at most one generation
call — nothing is retried or requeued.  The error never escapes the
callback: `doQuery` is a total function returning an outcome on every
path. -/
theorem c8_query_failure_clears_and_notifies (env : QueryEnv) (file : VFile)
    (p0 : PanelState) (content : String)
    (hp : env.panelPresent = true)
    (hr : env.read file.path = .ok content)
    (hfail :
      (∃ e, env.retrieveResult (parseFrontmatter content).2 env.topK env.minSimilarity
          = .error e) ∨
      (∃ ins e,
        env.retrieveResult (parseFrontmatter content).2 env.topK env.minSimilarity
            = .ok ins ∧
        ins ≠ [] ∧
        env.generateResult (parseFrontmatter content).2 ins = .error e)) :
    (doQuery env file p0).panel = clearedPanel ∧
    (doQuery env file p0).notice = true ∧
    (doQuery env file p0).calls.countP (·.isRetrieveCall) ≤ 1 ∧
    (doQuery env file p0).calls.countP (·.isGenerateCall) ≤ 1 := by
  rcases hfail with ⟨e, he⟩ | ⟨ins, e, hok, hne, hgen⟩
  · simp [doQuery, hp, hr, he, List.countP_cons, RemoteCall.isRetrieveCall,
      RemoteCall.isGenerateCall]
  · have hne' : ins.isEmpty = false := by
      cases ins with
      | nil => exact absurd rfl hne
      | cons a t => rfl
    simp [doQuery, hp, hr, hok, hgen, hne', List.countP_cons,
      RemoteCall.isRetrieveCall, RemoteCall.isGenerateCall]

/-- Witness for C8 at a concrete environment whose generation call
fails after a successful non-empty retrieval. -/
theorem c8_query_failure_clears_and_notifies_witness :
    (doQuery
        ⟨5, 0, true, none, true, fun _ => .ok "why",
          fun _ _ _ => .ok [⟨"Insights/i.md", "c", 1, []⟩],
          fun _ _ => .error "boom"⟩
        ⟨"Questions/q.md", "", true⟩ clearedPanel).panel = clearedPanel ∧
    (doQuery
        ⟨5, 0, true, none, true, fun _ => .ok "why",
          fun _ _ _ => .ok [⟨"Insights/i.md", "c", 1, []⟩],
          fun _ _ => .error "boom"⟩
        ⟨"Questions/q.md", "", true⟩ clearedPanel).notice = true ∧
    (doQuery
        ⟨5, 0, true, none, true, fun _ => .ok "why",
          fun _ _ _ => .ok [⟨"Insights/i.md", "c", 1, []⟩],
          fun _ _ => .error "boom"⟩
        ⟨"Questions/q.md", "", true⟩ clearedPanel).calls.countP
      (·.isRetrieveCall) ≤ 1 ∧
    (doQuery
        ⟨5, 0, true, none, true, fun _ => .ok "why",
          fun _ _ _ => .ok [⟨"Insights/i.md", "c", 1, []⟩],
          fun _ _ => .error "boom"⟩
        ⟨"Questions/q.md", "", true⟩ clearedPanel).calls.countP
      (·.isGenerateCall) ≤ 1 :=
  c8_query_failure_clears_and_notifies _ _ _ "why" rfl rfl
    (Or.inr ⟨[⟨"Insights/i.md", "c", 1, []⟩], "boom", rfl, by decide, rfl⟩)

/-- C10: the parser is total — `parseFrontmatter` is a plain Lean
function, mirroring that the source never throws on any input — and on
every input without a recognizable header block (the text does not
begin with the opening delimiter, or no closing marker follows, which
is exactly when the source regex fails to match) it returns the empty
frontmatter and the entire input unchanged as the body. -/
theorem c10_no_header_yields_empty_and_identity (s : String)
    (h : hasRecognizableHeader s.data = false) :
    parseFrontmatter s = (emptyFM, s) := by
  unfold hasRecognizableHeader at h
  unfold parseFrontmatter parseFM
  cases hpre : openMark.isPrefixOf s.data with
  | false =>
    simp only [hpre]
    simp only [Bool.false_eq_true, if_false]
    cases s
    rfl
  | true =>
    rw [hpre] at h
    simp only [Bool.true_and] at h
    cases hidx : firstIdx closeMark (s.data.drop 4) with
    | none =>
      simp only [hpre, hidx]
      simp only [if_true]
      cases s
      rfl
    | some k => rw [hidx] at h; cases h

/-- Witness for C10 at a concrete input with no header. -/
theorem c10_no_header_yields_empty_and_identity_witness :
    parseFrontmatter "just a body, no delimiters" =
      (emptyFM, "just a body, no delimiters") :=
  c10_no_header_yields_empty_and_identity _ (by decide)

/-- C2: the state-machine invariant of the sync service, over the
interleaved small-step semantics.  First, the in-progress flag guards
re-entry: invoking `processSyncQueue` while a pass is running changes
nothing, so at most one drain pass executes at a time.  Second, a path
enqueued while a pass is running never enters the remaining
snapshot — the running pass will not process it on account of the add —
but it lands in the pending set.  Third, pending-set membership is
preserved by every event: the only step that removes a path from the
pending set is the start of a new pass, which moves the whole set into
the snapshot of that pass — so a path pending when the next pass starts is
processed by that next pass. -/
theorem c2_single_pass_and_pending_preserved :
    (∀ (env : SyncEnv) (s : MachineState) (rem : List String),
      s.phase = SyncPhase.running rem → machineStep env .invoke s = s) ∧
    (∀ (env : SyncEnv) (s : MachineState) (rem : List String) (p : String),
      s.phase = SyncPhase.running rem →
        (machineStep env (.enq p) s).phase = SyncPhase.running rem ∧
          p ∈ (machineStep env (.enq p) s).queue) ∧
    (∀ (env : SyncEnv) (s : MachineState) (e : SyncEvent) (p : String),
      p ∈ s.queue →
        p ∈ (machineStep env e s).queue ∨
          (s.phase = SyncPhase.idle ∧ e = SyncEvent.invoke ∧
            machineStep env e s = ⟨[], SyncPhase.running s.queue⟩)) := by
  refine ⟨?_, ?_, ?_⟩
  · intro env s rem h
    simp [machineStep, h]
  · intro env s rem p h
    exact ⟨by simp [machineStep, h], mem_setAdd_self s.queue p⟩
  · intro env s e p h
    cases e with
    | enq x =>
      exact Or.inl (mem_setAdd_of_mem x h)
    | invoke =>
      cases hp : s.phase with
      | idle =>
        have hne : s.queue.isEmpty = false := by
          cases hq : s.queue with
          | nil => rw [hq] at h; cases h
          | cons a t => rfl
        exact Or.inr ⟨rfl, rfl, by simp [machineStep, hp, hne]⟩
      | running rem =>
        left
        simpa [machineStep, hp] using h
    | tick =>
      left
      cases hp : s.phase with
      | idle => simpa [machineStep, hp] using h
      | running rem =>
        cases rem with
        | nil => simpa [machineStep, hp] using h
        | cons a t =>
          simpa [machineStep, hp] using mem_procPath_queue env a h
    | finish =>
      left
      cases hp : s.phase with
      | idle => simpa [machineStep, hp] using h
      | running rem =>
        cases rem with
        | nil => simpa [machineStep, hp] using h
        | cons a t => simpa [machineStep, hp] using h

/-- Witness for C2, instantiating the three conjuncts at a concrete
environment and state with a running pass. -/
theorem c2_single_pass_and_pending_preserved_witness :
    machineStep ⟨fun _ => none, fun _ => true⟩ .invoke
        ⟨["Insights/b.md"], .running ["Insights/a.md"]⟩ =
      ⟨["Insights/b.md"], .running ["Insights/a.md"]⟩ ∧
    ((machineStep ⟨fun _ => none, fun _ => true⟩ (.enq "Insights/c.md")
        ⟨["Insights/b.md"], .running ["Insights/a.md"]⟩).phase =
      SyncPhase.running ["Insights/a.md"] ∧
      "Insights/c.md" ∈ (machineStep ⟨fun _ => none, fun _ => true⟩
        (.enq "Insights/c.md")
        ⟨["Insights/b.md"], .running ["Insights/a.md"]⟩).queue) ∧
    ("Insights/b.md" ∈ (machineStep ⟨fun _ => none, fun _ => true⟩ .tick
        ⟨["Insights/b.md"], .running ["Insights/a.md"]⟩).queue ∨
      ((⟨["Insights/b.md"], .running ["Insights/a.md"]⟩ : MachineState).phase =
          SyncPhase.idle ∧
        SyncEvent.tick = SyncEvent.invoke ∧
        machineStep ⟨fun _ => none, fun _ => true⟩ .tick
            ⟨["Insights/b.md"], .running ["Insights/a.md"]⟩ =
          ⟨[], SyncPhase.running ["Insights/b.md"]⟩)) :=
  ⟨c2_single_pass_and_pending_preserved.1 _ _ _ rfl,
    c2_single_pass_and_pending_preserved.2.1 _ _ _ _ rfl,
    c2_single_pass_and_pending_preserved.2.2 _ _ _ _ (by decide)⟩

/-- C3: during a drain over snapshot `q`, a path P whose index-upsert
call fails is back in the pending set when the pass completes, a
further drain is scheduled (the rescheduling flag is true), the calls
of the pass are exactly the concatenation of the per-path
calls — so the failure for P aborts nothing else — and the next drain
from the resulting state issues the index-upsert for P again. -/
theorem c3_failed_upsert_requeued_and_retried (env : SyncEnv) (q : List String)
    (P : String) (f : VFile)
    (hmem : P ∈ q)
    (hres : env.resolve P = some f) (hT : f.isTFile = true) (hpath : f.path = P)
    (hins : isInsightNote f = true) (hfail : env.upsertOk P = false) :
    P ∈ (processSyncQueue env ⟨q, false⟩).1.syncQueue ∧
    (processSyncQueue env ⟨q, false⟩).2.2 = true ∧
    (processSyncQueue env ⟨q, false⟩).2.1 = q.flatMap (pathCalls env) ∧
    RemoteCall.indexUpsert P (parseFM f.content.data).2.asString
        (parseFM f.content.data).1 ∈
      (processSyncQueue env (processSyncQueue env ⟨q, false⟩).1).2.1 := by
  have hthrow : syncInsightThrows env f = true := by
    unfold syncInsightThrows
    rw [hpath]
    simp [hins, hfail]
  have hqne : q.isEmpty = false := by
    cases hq : q with
    | nil => rw [hq] at hmem; cases hmem
    | cons a t => rfl
  have hP1 : P ∈ (drainLoop env q []).1 :=
    drainLoop_requeues env hres hT hthrow q [] hmem
  have h1ne : (drainLoop env q []).1.isEmpty = false := by
    cases hq : (drainLoop env q []).1 with
    | nil => rw [hq] at hP1; cases hP1
    | cons a t => rfl
  have hguard : processSyncQueue env ⟨q, false⟩ =
      (⟨(drainLoop env q []).1, false⟩, (drainLoop env q []).2,
        !(drainLoop env q []).1.isEmpty) := by
    simp [processSyncQueue, hqne]
  refine ⟨?_, ?_, ?_, ?_⟩
  · rw [hguard]; exact hP1
  · rw [hguard]; simp [h1ne]
  · rw [hguard]; exact drainLoop_calls env q []
  · rw [hguard]
    simp only [processSyncQueue, Bool.false_or, h1ne, if_false,
      Bool.false_eq_true]
    rw [drainLoop_calls]
    refine List.mem_flatMap.mpr ⟨P, hP1, ?_⟩
    unfold pathCalls
    rw [hres]
    simp [hT, syncInsightCalls, hins, hpath]

/-- Witness for C3 at a concrete environment in which the upsert for
Insights/a.md fails. -/
theorem c3_failed_upsert_requeued_and_retried_witness :
    "Insights/a.md" ∈ (processSyncQueue
        ⟨fun p => if p = "Insights/a.md" then some ⟨"Insights/a.md", "X", true⟩
          else none, fun _ => false⟩
        ⟨["Insights/a.md"], false⟩).1.syncQueue ∧
    (processSyncQueue
        ⟨fun p => if p = "Insights/a.md" then some ⟨"Insights/a.md", "X", true⟩
          else none, fun _ => false⟩
        ⟨["Insights/a.md"], false⟩).2.2 = true ∧
    (processSyncQueue
        ⟨fun p => if p = "Insights/a.md" then some ⟨"Insights/a.md", "X", true⟩
          else none, fun _ => false⟩
        ⟨["Insights/a.md"], false⟩).2.1 =
      ["Insights/a.md"].flatMap (pathCalls
        ⟨fun p => if p = "Insights/a.md" then some ⟨"Insights/a.md", "X", true⟩
          else none, fun _ => false⟩) ∧
    RemoteCall.indexUpsert "Insights/a.md"
        (parseFM (String.data "X")).2.asString (parseFM (String.data "X")).1 ∈
      (processSyncQueue
        ⟨fun p => if p = "Insights/a.md" then some ⟨"Insights/a.md", "X", true⟩
          else none, fun _ => false⟩
        (processSyncQueue
          ⟨fun p => if p = "Insights/a.md" then some ⟨"Insights/a.md", "X", true⟩
            else none, fun _ => false⟩
          ⟨["Insights/a.md"], false⟩).1).2.1 :=
  c3_failed_upsert_requeued_and_retried _ _ _ ⟨"Insights/a.md", "X", true⟩
    (by decide) (by decide) (by decide) (by decide) (by decide) (by decide)

/-- Iterated enqueue of the same path, starting from a fresh service
state (empty pending set, not syncing). -/
def iterEnq (P : String) : Nat → SyncState
  | 0 => ⟨[], false⟩
  | n + 1 => queueSync (iterEnq P n) P

/-- C4: enqueueing the same path N ≥ 1 times before a drain leaves the
pending set with exactly the one entry for P (the set add is
idempotent), and the next drain — when P resolves to an Insight note
file and the upsert succeeds — issues exactly one index-upsert call for
P, empties the pending set, and schedules no further drain. -/
theorem c4_enqueue_idempotent_single_upsert (env : SyncEnv) (P : String)
    (f : VFile) (N : Nat) (hN : 1 ≤ N)
    (hres : env.resolve P = some f) (hT : f.isTFile = true) (hpath : f.path = P)
    (hins : isInsightNote f = true) (hok : env.upsertOk P = true) :
    (iterEnq P N).syncQueue = [P] ∧
    processSyncQueue env (iterEnq P N) =
      (⟨[], false⟩,
        [RemoteCall.indexUpsert P (parseFM f.content.data).2.asString
          (parseFM f.content.data).1],
        false) := by
  have hq : iterEnq P N = ⟨[P], false⟩ := by
    induction N with
    | zero => cases hN
    | succ n ih =>
      cases n with
      | zero => simp [iterEnq, queueSync, setAdd]
      | succ m =>
        rw [iterEnq, ih (by omega)]
        simp [queueSync, setAdd]
  rw [hq]
  refine ⟨rfl, ?_⟩
  have hthrow : syncInsightThrows env f = false := by
    unfold syncInsightThrows
    rw [hpath]
    simp [hok]
  simp [processSyncQueue, drainLoop, procPath, hres, hT, hthrow,
    syncInsightCalls, hins, hpath]

/-- Witness for C4 with three enqueues of Insights/a.md and a
succeeding upsert. -/
theorem c4_enqueue_idempotent_single_upsert_witness :
    (iterEnq "Insights/a.md" 3).syncQueue = ["Insights/a.md"] ∧
    processSyncQueue
        ⟨fun p => if p = "Insights/a.md" then some ⟨"Insights/a.md", "X", true⟩
          else none, fun _ => true⟩
        (iterEnq "Insights/a.md" 3) =
      (⟨[], false⟩,
        [RemoteCall.indexUpsert "Insights/a.md"
          (parseFM (String.data "X")).2.asString (parseFM (String.data "X")).1],
        false) :=
  c4_enqueue_idempotent_single_upsert _ _ ⟨"Insights/a.md", "X", true⟩ 3
    (by decide) (by decide) (by decide) (by decide) (by decide) (by decide)

lemma closeMark_not_prefix_extend (c : Char) (fm' tl : List Char)
    (h1 : closeMark.isPrefixOf (c :: fm') = false) :
    closeMark.isPrefixOf ((c :: fm') ++ (closeMark ++ tl)) = false := by
  cases hx : closeMark.isPrefixOf ((c :: fm') ++ (closeMark ++ tl)) with
  | false => rfl
  | true =>
    exfalso
    rcases Nat.lt_or_ge fm'.length 3 with hlt | hge
    · rcases fm' with _ | ⟨a, _ | ⟨b, _ | ⟨x, rest⟩⟩⟩
      · simp [closeMark, List.isPrefixOf] at hx
      · simp [closeMark, List.isPrefixOf] at hx
      · simp [closeMark, List.isPrefixOf] at hx
      · simp at hlt; omega
    · have hlen : closeMark.length ≤ (c :: fm').length := by
        simp [closeMark]
        omega
      have hp1 : closeMark <+: (c :: fm') ++ (closeMark ++ tl) :=
        List.isPrefixOf_iff_prefix.mp hx
      have hp2 : (c :: fm') <+: (c :: fm') ++ (closeMark ++ tl) :=
        List.prefix_append _ _
      have hp3 : closeMark <+: (c :: fm') :=
        List.prefix_of_prefix_length_le hp1 hp2 hlen
      have h3 := List.isPrefixOf_iff_prefix.mpr hp3
      rw [h1] at h3
      cases h3

lemma firstIdx_append_close (tl : List Char) :
    ∀ fm : List Char, firstIdx closeMark fm = none →
      firstIdx closeMark (fm ++ (closeMark ++ tl)) = some fm.length := by
  intro fm
  induction fm with
  | nil =>
    intro _
    simp [firstIdx, closeMark, List.isPrefixOf]
  | cons c fm' ih =>
    intro h
    have h1 : closeMark.isPrefixOf (c :: fm') = false := by
      cases hx : closeMark.isPrefixOf (c :: fm') with
      | false => rfl
      | true => simp only [firstIdx, hx, if_true] at h; cases h
    have h2 : firstIdx closeMark fm' = none := by
      simp only [firstIdx, h1, Bool.false_eq_true, if_false] at h
      exact Option.map_eq_none.mp h
    have hext := closeMark_not_prefix_extend c fm' tl h1
    rw [List.cons_append] at hext
    simp only [List.cons_append, List.append_eq, firstIdx, hext,
      Bool.false_eq_true, if_false, ih h2, List.length_cons]
    rfl

lemma setField_eq (acc : NoteFrontmatter) (k v : String) :
    setField acc k v =
      { type := if k = "type" then some v else acc.type
        created := if k = "created" then some v else acc.created
        status := if k = "status" then some v else acc.status
        triggered_by := if k = "triggered_by" then some v else acc.triggered_by
        confidence := if k = "confidence" then some v else acc.confidence
        evolved_from := if k = "evolved_from" then some v else acc.evolved_from
        related_insights := acc.related_insights
        related_questions := acc.related_questions
        source_questions := acc.source_questions
        tags := acc.tags } := by
  unfold setField
  split_ifs <;> simp_all

lemma processLine_eq (acc : NoteFrontmatter) (line : List Char) :
    processLine acc line =
      { type := lineStep "type" acc.type line
        created := lineStep "created" acc.created line
        status := lineStep "status" acc.status line
        triggered_by := lineStep "triggered_by" acc.triggered_by line
        confidence := lineStep "confidence" acc.confidence line
        evolved_from := lineStep "evolved_from" acc.evolved_from line
        related_insights := acc.related_insights
        related_questions := acc.related_questions
        source_questions := acc.source_questions
        tags := acc.tags } := by
  unfold processLine lineStep
  cases h : line.findIdx? (fun c => c == ':') with
  | none => rfl
  | some i => exact setField_eq acc _ _

lemma foldl_processLine (lines : List (List Char)) :
    ∀ acc : NoteFrontmatter,
      lines.foldl processLine acc =
        { type := lines.foldl (lineStep "type") acc.type
          created := lines.foldl (lineStep "created") acc.created
          status := lines.foldl (lineStep "status") acc.status
          triggered_by := lines.foldl (lineStep "triggered_by") acc.triggered_by
          confidence := lines.foldl (lineStep "confidence") acc.confidence
          evolved_from := lines.foldl (lineStep "evolved_from") acc.evolved_from
          related_insights := acc.related_insights
          related_questions := acc.related_questions
          source_questions := acc.source_questions
          tags := acc.tags } := by
  induction lines with
  | nil => intro acc; rfl
  | cons l ls ih =>
    intro acc
    rw [List.foldl_cons, ih, processLine_eq]
    rfl

/-- Characterization of the header-line loop: the six recognized scalar
fields each hold the value of the last matching `key: value` line, and
the four list-valued interface fields are never populated. -/
lemma parseLines_eq (raw : List Char) :
    parseLines raw =
      { type := extractLast "type" (splitNl raw)
        created := extractLast "created" (splitNl raw)
        status := extractLast "status" (splitNl raw)
        triggered_by := extractLast "triggered_by" (splitNl raw)
        confidence := extractLast "confidence" (splitNl raw)
        evolved_from := extractLast "evolved_from" (splitNl raw)
        related_insights := none
        related_questions := none
        source_questions := none
        tags := none } := by
  unfold parseLines extractLast
  rw [foldl_processLine]
  rfl

/-- C9 counterexample: the claim, with §3, counts the tags field (and
the related-note lists) among the recognized frontmatter fields that
`parse` recovers.  On the concrete input whose well-formed header is
exactly `tags: x`, the code returns a completely empty frontmatter —
the switch has no case for `tags` (nor for any list-valued key), so the
field is not recovered even though the header is recognized and the
key is present. -/
theorem c9_counterexample_tags_not_recovered :
    hasRecognizableHeader (String.data "---\ntags: x\n---\nB") = true ∧
    (parseFrontmatter "---\ntags: x\n---\nB").1 = emptyFM ∧
    (parseFrontmatter "---\ntags: x\n---\nB").2 = "B" :=
  ⟨by decide, by decide, by decide⟩

/-- C9 amended: for every raw text with a well-formed delimited header
(opening delimiter line, header text containing no closing marker,
closing delimiter line), `parse` recovers exactly the recognized
*scalar* fields present in the header — type, created, status,
triggered_by, confidence, evolved_from, each from the last matching
`key: value` line, values trimmed and matching quotes stripped — leaves
every other key (including the list-valued related-note and tags keys,
which the parser never populates) absent from the typed result, and
returns a body equal to the text following the closing header
delimiter. -/
theorem c9_amended_scalar_fields_recovered (fm b : List Char)
    (h : firstIdx closeMark fm = none) :
    parseFM (openMark ++ (fm ++ (closeMark ++ ('\n' :: b)))) =
      ({ type := extractLast "type" (splitNl fm)
         created := extractLast "created" (splitNl fm)
         status := extractLast "status" (splitNl fm)
         triggered_by := extractLast "triggered_by" (splitNl fm)
         confidence := extractLast "confidence" (splitNl fm)
         evolved_from := extractLast "evolved_from" (splitNl fm)
         related_insights := none
         related_questions := none
         source_questions := none
         tags := none }, b) := by
  have hpre : openMark.isPrefixOf
      (openMark ++ (fm ++ (closeMark ++ ('\n' :: b)))) = true :=
    List.isPrefixOf_iff_prefix.mpr (List.prefix_append _ _)
  have h4 : openMark.length = 4 := rfl
  have hdrop : (openMark ++ (fm ++ (closeMark ++ ('\n' :: b)))).drop 4 =
      fm ++ (closeMark ++ ('\n' :: b)) := by
    rw [← h4, List.drop_left]
  have hidx : firstIdx closeMark (fm ++ (closeMark ++ ('\n' :: b))) =
      some fm.length :=
    firstIdx_append_close ('\n' :: b) fm h
  have htake : (fm ++ (closeMark ++ ('\n' :: b))).take fm.length = fm := by
    rw [List.take_left]
  have hlen : (fm ++ closeMark).length = fm.length + 4 := by
    simp [closeMark]
  have hafter : (fm ++ (closeMark ++ ('\n' :: b))).drop (fm.length + 4) =
      '\n' :: b := by
    rw [← List.append_assoc, ← hlen, List.drop_left]
  unfold parseFM
  rw [hpre]
  simp only [if_true, hdrop, hidx, htake, hafter, parseLines_eq]

/-- Witness for C9 amended at a concrete well-formed header containing
one recognized scalar key and one unrecognized key. -/
theorem c9_amended_scalar_fields_recovered_witness :
    firstIdx closeMark (String.data "type: insight\nfoo: 1") = none ∧
    parseFM (openMark ++ (String.data "type: insight\nfoo: 1" ++
        (closeMark ++ ('\n' :: String.data "Body")))) =
      ({ type := extractLast "type" (splitNl (String.data "type: insight\nfoo: 1"))
         created := extractLast "created" (splitNl (String.data "type: insight\nfoo: 1"))
         status := extractLast "status" (splitNl (String.data "type: insight\nfoo: 1"))
         triggered_by :=
           extractLast "triggered_by" (splitNl (String.data "type: insight\nfoo: 1"))
         confidence :=
           extractLast "confidence" (splitNl (String.data "type: insight\nfoo: 1"))
         evolved_from :=
           extractLast "evolved_from" (splitNl (String.data "type: insight\nfoo: 1"))
         related_insights := none
         related_questions := none
         source_questions := none
         tags := none }, String.data "Body") :=
  ⟨by decide, c9_amended_scalar_fields_recovered _ _ (by decide)⟩

end Aurora
